import Mathlib

/-!
Shallow embedding of the Verihash message hasher
(`src/rust/src/decoder/hasher.rs`): the transcript state machine, the
canonical byte encoders, and the public `Hasher` wrapper.

The opaque incremental hash context is modelled as the list of bytes
absorbed so far (`digest.input bs` appends `bs`); bytes are `Nat` values.
Rust `usize`/`u64` values are modelled as `Nat`, with the wrapping
behaviour of unchecked subtraction made explicit where the source uses
plain `-` on `usize`.
-/

namespace Veriform

/-- Number of values of the 64-bit `usize`/`u64` machine words. -/
def USIZE : Nat := 2 ^ 64

/-- Result of `usize` subtraction `a - b` as the source's plain `-` computes
it when compiled without overflow checks: two's-complement wraparound for
`a < b` (with overflow checks enabled the same expression panics instead).
Faithful for `a, b < USIZE`. This is not the checked subtraction. -/
def usize_sub (a b : Nat) : Nat :=
  if b ≤ a then a - b else a + USIZE - b

/-- Little-endian 8-byte encoding of a `u64` value (`to_le_bytes`). -/
def toLeBytes8 (n : Nat) : List Nat :=
  [n % 256, n / 256 % 256, n / 256 ^ 2 % 256, n / 256 ^ 3 % 256,
   n / 256 ^ 4 % 256, n / 256 ^ 5 % 256, n / 256 ^ 6 % 256, n / 256 ^ 7 % 256]

/-- Wire types of the encoding (`field::WireType`): one constructor per
on-wire value kind; boolean true and false are distinct wire types. -/
inductive WireType where
  | wfalse
  | wtrue
  | uint64
  | sint64
  | bytes
  | string
  | message
  | sequence
deriving DecidableEq, Repr

/-- Modelled from the spec: the `field` module defining `WireType::to_u8`
is not part of the hasher source file; the spec fixes only that each wire
type has a fixed, distinct single-byte canonical code. Codes are assigned
in declaration order. -/
def WireType.to_u8 : WireType → Nat
  | .wfalse => 0
  | .wtrue => 1
  | .uint64 => 2
  | .sint64 => 3
  | .bytes => 4
  | .string => 5
  | .message => 6
  | .sequence => 7

/-- Verihash prefix used by tags (the `UInt64` wire-type code). -/
def TAG_PREFIX : Nat := WireType.uint64.to_u8

/-- Field header (`field::Header`): a tag paired with a wire type. -/
structure Header where
  tag : Nat
  wire_type : WireType
deriving DecidableEq, Repr

/-- Decoding events (`decoder::Event`), one constructor per event kind. -/
inductive Event where
  | fieldHeader (header : Header)
  | lengthDelimiter (wire_type : WireType) (length : Nat)
  | bool (value : Bool)
  | uint64 (value : Nat)
  | sint64 (value : Int)
  | valueChunk (wire_type : WireType) (bytes : List Nat) (remaining : Nat)
  | sequenceHeader (wire_type : WireType) (length : Nat)
deriving DecidableEq, Repr

/-- Hasher state machine states (`State` in the source). -/
inductive State where
  | initial
  | header (h : Header)
  | bytes (remaining : Nat)
  | string (remaining : Nat)
  | message (remaining : Nat)
  | sequence (remaining : Nat)
deriving DecidableEq, Repr

/-- The two `Error` variants the hasher produces (`crate::error::Error`). -/
inductive RtError where
  | failed
  | hashing
deriving DecidableEq, Repr

/-- Outcome of one `State::transition`: success with the next state and the
bytes absorbed into the digest during the transition, a returned error, or
a Rust panic (from `unreachable!` or a checked-mode arithmetic overflow). -/
inductive Outcome where
  | ok (state : State) (absorbed : List Nat)
  | err (e : RtError)
  | panicked
deriving DecidableEq, Repr

/-- Canonical encoder `hash_fixed`: prefix, 8-byte LE tag, wire-type code,
then the body bytes. -/
def hash_fixed (tag : Nat) (wire_type : WireType) (body : List Nat) : List Nat :=
  [TAG_PREFIX] ++ toLeBytes8 tag ++ [wire_type.to_u8] ++ body

/-- Canonical encoder `hash_boolean`: body is one byte, and true/false use
distinct wire-type codes. -/
def hash_boolean (tag : Nat) (value : Bool) : List Nat :=
  if value then hash_fixed tag .wtrue [1] else hash_fixed tag .wfalse [0]

/-- Canonical encoder `hash_uint64`. -/
def hash_uint64 (tag : Nat) (value : Nat) : List Nat :=
  hash_fixed tag .uint64 (toLeBytes8 value)

/-- Canonical encoder `hash_sint64`: 8-byte LE two's complement. -/
def hash_sint64 (tag : Nat) (value : Int) : List Nat :=
  hash_fixed tag .sint64 (toLeBytes8 (value.emod (USIZE : Int)).toNat)

/-- Canonical encoder `hash_dynamically_sized_value`: prefix, 8-byte LE
tag, wire-type code, 8-byte LE length. -/
def hash_dynamically_sized_value (tag : Nat) (wire_type : WireType) (length : Nat) :
    List Nat :=
  [TAG_PREFIX] ++ toLeBytes8 tag ++ [wire_type.to_u8] ++ toLeBytes8 length

/-- `State::handle_field_header`: latch the header when in `Initial`. -/
def State.handle_field_header (s : State) (h : Header) : Outcome :=
  if s = .initial then .ok (.header h) [] else .err .hashing

/-- `State::handle_length_delimiter`: in `Header`, a matching wire type
selects the remaining-count state and absorbs the length-delimited header;
a matching but non-length-delimited wire type hits `unreachable!`. The new
state is computed before the absorption, so the panic absorbs nothing. -/
def State.handle_length_delimiter (s : State) (wire_type : WireType) (length : Nat) :
    Outcome :=
  match s with
  | .header h =>
    if wire_type ≠ h.wire_type then .err .hashing
    else
      match wire_type with
      | .bytes => .ok (.bytes length) (hash_dynamically_sized_value h.tag wire_type length)
      | .string => .ok (.string length) (hash_dynamically_sized_value h.tag wire_type length)
      | .message => .ok (.message length) (hash_dynamically_sized_value h.tag wire_type length)
      | .sequence => .ok (.sequence length) (hash_dynamically_sized_value h.tag wire_type length)
      | _ => .panicked
  | _ => .err .hashing

/-- `State::handle_fixed_sized_value`: in `Header`, absorb the canonical
encoding of the scalar and return to `Initial`; any other state errors.
`transition` only routes scalar events here; a non-scalar event in
`Header` state would hit the source's `unreachable!`. -/
def State.handle_fixed_sized_value (s : State) (e : Event) : Outcome :=
  match s with
  | .header h =>
    match e with
    | .bool v => .ok .initial (hash_boolean h.tag v)
    | .uint64 v => .ok .initial (hash_uint64 h.tag v)
    | .sint64 v => .ok .initial (hash_sint64 h.tag v)
    | _ => .panicked
  | _ => .err .hashing

/-- `State::handle_value_chunk`. The `Bytes`/`String` arms fall through to
`digest.input(bytes)`; the `Message`/`Sequence` arms `return` early and so
absorb nothing, and on nonzero remaining they move to `State::Bytes`. The
remaining check uses the source's unchecked `usize` subtraction. -/
def State.handle_value_chunk (s : State) (wire_type : WireType) (bytes : List Nat)
    (new_remaining : Nat) : Outcome :=
  match s with
  | .bytes remaining =>
    if wire_type ≠ .bytes ∨ usize_sub remaining bytes.length ≠ new_remaining then
      .err .hashing
    else if new_remaining = 0 then .ok .initial bytes
    else .ok (.bytes new_remaining) bytes
  | .string remaining =>
    if wire_type ≠ .string ∨ usize_sub remaining bytes.length ≠ new_remaining then
      .err .hashing
    else if new_remaining = 0 then .ok .initial bytes
    else .ok (.string new_remaining) bytes
  | .message remaining =>
    if wire_type ≠ .message ∨ usize_sub remaining bytes.length ≠ new_remaining then
      .err .hashing
    else if new_remaining = 0 then .ok .initial []
    else .ok (.bytes new_remaining) []
  | .sequence remaining =>
    if wire_type ≠ .sequence ∨ usize_sub remaining bytes.length ≠ new_remaining then
      .err .hashing
    else if new_remaining = 0 then .ok .initial []
    else .ok (.bytes new_remaining) []
  | _ => .err .hashing

/-- `State::handle_sequence_header`: unconditionally returns the current
state unchanged (a placeholder in the source). -/
def State.handle_sequence_header (s : State) (_wire_type : WireType) (_length : Nat) :
    Outcome :=
  .ok s []

/-- `State::transition`: dispatch on the event kind. -/
def State.transition (s : State) (e : Event) : Outcome :=
  match e with
  | .fieldHeader h => s.handle_field_header h
  | .lengthDelimiter wt len => s.handle_length_delimiter wt len
  | .bool _ => s.handle_fixed_sized_value e
  | .uint64 _ => s.handle_fixed_sized_value e
  | .sint64 _ => s.handle_fixed_sized_value e
  | .valueChunk wt bs rem => s.handle_value_chunk wt bs rem
  | .sequenceHeader wt len => s.handle_sequence_header wt len

/-- The public `Hasher`: digest bytes absorbed so far and the state slot
(`None` once a transition has failed, i.e. poisoned). -/
structure Hasher where
  digest : List Nat
  state : Option State
deriving DecidableEq, Repr

/-- `Hasher::new` / `Default`: empty digest, `Initial` state. -/
def Hasher.new : Hasher :=
  { digest := [], state := some .initial }

/-- Result of one `Hasher::hash_event` call, carrying the hasher afterward:
`Ok(())`, `Err(e)`, or a propagating panic. -/
inductive HashResult where
  | ok (h : Hasher)
  | err (h : Hasher) (e : RtError)
  | panicked (h : Hasher)
deriving DecidableEq, Repr

/-- `Hasher::hash_event`: a poisoned hasher fails immediately with
`Error::Failed` and is left untouched; otherwise the state is taken,
transitioned, and restored only on success, with the transition's absorbed
bytes appended to the digest. -/
def Hasher.hash_event (h : Hasher) (e : Event) : HashResult :=
  match h.state with
  | none => .err h .failed
  | some s =>
    match s.transition e with
    | .ok s' out => .ok { digest := h.digest ++ out, state := some s' }
    | .err er => .err { digest := h.digest, state := none } er
    | .panicked => .panicked { digest := h.digest, state := none }

/-- Feed a list of events to a hasher in order, stopping at the first call
that does not return `Ok`. -/
def runEvents (h : Hasher) : List Event → HashResult
  | [] => .ok h
  | e :: es =>
    match h.hash_event e with
    | .ok h' => runEvents h' es
    | r => r

/-- Whether a state is one of the four remaining-count states. -/
def State.isRemainingCount : State → Bool
  | .bytes _ => true
  | .string _ => true
  | .message _ => true
  | .sequence _ => true
  | _ => false

/-- Whether a state is a remaining-count state whose remaining is zero. -/
def State.isRemainingZero : State → Bool
  | .bytes r => r == 0
  | .string r => r == 0
  | .message r => r == 0
  | .sequence r => r == 0
  | _ => false

/-- C1: evaluation at the failing input. In state `Message{3}` a
`ValueChunk(Message, [0xAA, 0xBB, 0xCC], remaining = 0)` is accepted and
moves to `Initial`, but the chunk's bytes are NOT absorbed into the hash
context: the digest holds only the length-delimited header bytes, and the
chunk byte `0xAA` never appears in it, contradicting "absorbed verbatim"
(the `Message`/`Sequence` arms return before `digest.input(bytes)`). -/
theorem c1_message_chunk_bytes_not_absorbed :
    runEvents Hasher.new
      [.fieldHeader ⟨1, .message⟩, .lengthDelimiter .message 3,
       .valueChunk .message [170, 187, 204] 0] =
      .ok { digest := hash_dynamically_sized_value 1 .message 3,
            state := some .initial } ∧
    170 ∉ hash_dynamically_sized_value 1 .message 3 := by
  decide

/-- C2: evaluation at the failing input. In state `Bytes{1}` a chunk of 2
bytes declaring `remaining = 2^64 - 1` is ACCEPTED: the unchecked `usize`
subtraction `1 - 2` wraps to `2^64 - 1`, matching the declared remaining,
so `hash_event` succeeds with remaining `2^64 - 1` instead of failing
(with overflow checks enabled the same subtraction panics). -/
theorem c2_underflow_wraps_to_success :
    runEvents Hasher.new
      [.fieldHeader ⟨1, .bytes⟩, .lengthDelimiter .bytes 1,
       .valueChunk .bytes [7, 7] (USIZE - 1)] =
      .ok { digest := hash_dynamically_sized_value 1 .bytes 1 ++ [7, 7],
            state := some (.bytes (USIZE - 1)) } := by
  decide

/-- C3: evaluation at the failing input. A 2-byte `Message` value hashed
as one chunk absorbs no content bytes, while the same value split into two
1-byte chunks (the second necessarily with wire type `Bytes`, since the
first chunk moves the state to `Bytes{1}`) absorbs the second byte: both
runs succeed and end in `Initial`, yet the absorbed-byte sequences differ,
refuting chunk-boundary invariance. -/
theorem c3_chunk_split_changes_digest :
    runEvents Hasher.new
      [.fieldHeader ⟨1, .message⟩, .lengthDelimiter .message 2,
       .valueChunk .message [97, 98] 0] =
      .ok { digest := hash_dynamically_sized_value 1 .message 2,
            state := some .initial } ∧
    runEvents Hasher.new
      [.fieldHeader ⟨1, .message⟩, .lengthDelimiter .message 2,
       .valueChunk .message [97] 1, .valueChunk .bytes [98] 0] =
      .ok { digest := hash_dynamically_sized_value 1 .message 2 ++ [98],
            state := some .initial } ∧
    hash_dynamically_sized_value 1 .message 2 ≠
      hash_dynamically_sized_value 1 .message 2 ++ [98] := by
  decide

/-- C5: evaluation at the failing input. In state `Header(tag 1, UInt64)`,
a `LengthDelimiter` with the matching wire type `UInt64` passes the
wire-type equality check and then hits the `unreachable!` arm: the call
panics (with nothing absorbed) instead of returning a failure value. -/
theorem c5_uint64_length_delimiter_panics :
    State.handle_length_delimiter (.header ⟨1, .uint64⟩) .uint64 3 = .panicked ∧
    runEvents Hasher.new [.fieldHeader ⟨1, .uint64⟩, .lengthDelimiter .uint64 3] =
      .panicked { digest := [], state := none } := by
  decide

/-- C6 counterexample: a `SequenceHeader` received while in `Header` state
SUCCEEDS, leaving the state and digest unchanged, contrary to the claim
that this pair yields a failure. -/
theorem c6_sequence_header_in_header_state_succeeds :
    runEvents Hasher.new [.fieldHeader ⟨1, .uint64⟩, .sequenceHeader .bytes 5] =
      .ok { digest := [], state := some (.header ⟨1, .uint64⟩) } := by
  decide

/-- C6 amended: a `SequenceHeader` event is a no-op in EVERY state,
including `Header`: on any non-poisoned hasher it succeeds, absorbs
nothing, and leaves the hasher unchanged. -/
theorem c6_sequence_header_noop (h : Hasher) (s : State) (wt : WireType) (len : Nat)
    (hs : h.state = some s) :
    h.hash_event (.sequenceHeader wt len) = .ok h := by
  cases h with
  | mk digest state =>
    cases hs
    simp [Hasher.hash_event, State.transition, State.handle_sequence_header]

/-- C6 witness: the no-op pass-through at a concrete hasher. -/
theorem c6_sequence_header_noop_witness :
    Hasher.new.hash_event (.sequenceHeader .bytes 5) = .ok Hasher.new :=
  c6_sequence_header_noop Hasher.new .initial .bytes 5 rfl

/-- C7: the end-to-end scenario. The five-event stream succeeds, ends in
`Initial`, and absorbs the canonical bytes of the two fields; the variant
whose final chunk declares `remaining = 1` fails with a hashing error at
that chunk (poisoning the hasher). -/
theorem c7_end_to_end_scenario :
    runEvents Hasher.new
      [.fieldHeader ⟨1, .uint64⟩, .uint64 42, .fieldHeader ⟨2, .bytes⟩,
       .lengthDelimiter .bytes 3, .valueChunk .bytes [97, 98, 99] 0] =
      .ok { digest := hash_uint64 1 42 ++ hash_dynamically_sized_value 2 .bytes 3 ++
              [97, 98, 99],
            state := some .initial } ∧
    runEvents Hasher.new
      [.fieldHeader ⟨1, .uint64⟩, .uint64 42, .fieldHeader ⟨2, .bytes⟩,
       .lengthDelimiter .bytes 3, .valueChunk .bytes [97, 98, 99] 1] =
      .err { digest := hash_uint64 1 42 ++ hash_dynamically_sized_value 2 .bytes 3,
             state := none } .hashing := by
  decide

/-- C8: boolean canonical encoding for tag 5. `Bool(true)` absorbs exactly
`[TAG_PREFIX, 5,0,0,0,0,0,0,0, True-code, 0x01]`; `Bool(false)` differs
only in the wire-type code byte (the distinct `False` code) and the body
byte `0x00`; and `TAG_PREFIX` is the one-byte `UInt64` wire-type code. -/
theorem c8_boolean_encoding :
    hash_boolean 5 true =
      [TAG_PREFIX, 5, 0, 0, 0, 0, 0, 0, 0, WireType.wtrue.to_u8, 1] ∧
    hash_boolean 5 false =
      [TAG_PREFIX, 5, 0, 0, 0, 0, 0, 0, 0, WireType.wfalse.to_u8, 0] ∧
    WireType.wtrue.to_u8 ≠ WireType.wfalse.to_u8 ∧
    TAG_PREFIX = WireType.uint64.to_u8 := by
  decide

/-- C9 counterexample: a `LengthDelimiter` with length 0 is a successful
`hash_event` that leaves the hasher in the remaining-count state
`Bytes{remaining = 0}`, contradicting "no successful hash_event ever
leaves the hasher in a remaining-count state whose remaining is 0". -/
theorem c9_zero_length_delimiter_leaves_zero_remaining :
    runEvents Hasher.new [.fieldHeader ⟨1, .bytes⟩, .lengthDelimiter .bytes 0] =
      .ok { digest := hash_dynamically_sized_value 1 .bytes 0,
            state := some (.bytes 0) } := by
  decide

/-- C4: once a `hash_event` call has returned an error, the hasher it
leaves behind is poisoned: every subsequent `hash_event` call, for any
event, returns `Error::Failed` immediately and returns the hasher
unchanged (in particular the digest is untouched). -/
theorem c4_poisoned_hasher_rejects_everything (h : Hasher) (e e' : Event)
    (h' : Hasher) (er : RtError) (hfail : h.hash_event e = .err h' er) :
    h'.hash_event e' = .err h' .failed := by
  have hnone : h'.state = none := by
    cases hs : h.state with
    | none =>
      simp only [Hasher.hash_event, hs] at hfail
      cases hfail
      exact hs
    | some s =>
      simp only [Hasher.hash_event, hs] at hfail
      cases ht : s.transition e <;> simp only [ht] at hfail <;> cases hfail
      rfl
  simp only [Hasher.hash_event, hnone]

/-- C4 witness: a scalar in `Initial` state fails, and the poisoned hasher
then rejects a further event with `Error::Failed`. -/
theorem c4_poisoned_hasher_rejects_everything_witness :
    Hasher.hash_event { digest := [], state := none } (.bool true) =
      .err { digest := [], state := none } .failed :=
  c4_poisoned_hasher_rejects_everything Hasher.new (.uint64 1) (.bool true)
    { digest := [], state := none } .hashing (by decide)

/-- Helper for the lifecycle analysis: a successful transition out of a
`Header` state on anything but a `SequenceHeader` is either a non-delimiter
event (i.e. a scalar) yielding `Initial`, or a `LengthDelimiter` yielding a
remaining-count state — never a `LengthDelimiter` yielding `Initial`. -/
theorem header_state_consumed (hd : Header) (e : Event) (s' : State) (out : List Nat)
    (hok : (State.header hd).transition e = .ok s' out)
    (hns : ∀ wt len, e ≠ .sequenceHeader wt len) :
    (s' = .initial ∧ ∀ wt len, e ≠ .lengthDelimiter wt len) ∨
      (s'.isRemainingCount = true ∧ ∃ wt len, e = .lengthDelimiter wt len) := by
  cases e with
  | fieldHeader h => simp [State.transition, State.handle_field_header] at hok
  | bool v => cases hok; exact Or.inl ⟨rfl, by intro wt len h; cases h⟩
  | uint64 v => cases hok; exact Or.inl ⟨rfl, by intro wt len h; cases h⟩
  | sint64 v => cases hok; exact Or.inl ⟨rfl, by intro wt len h; cases h⟩
  | lengthDelimiter wt len =>
    simp only [State.transition, State.handle_length_delimiter] at hok
    split at hok
    · cases hok
    · cases wt <;> cases hok <;> exact Or.inr ⟨rfl, _, _, rfl⟩
  | valueChunk wt bs rem => cases hok
  | sequenceHeader wt len => exact absurd rfl (hns wt len)

/-- Helper for the lifecycle analysis: a successful `ValueChunk` transition
reaches `Initial` exactly when the declared new remaining is zero. -/
theorem chunk_initial_iff_zero (s : State) (wt : WireType) (bs : List Nat) (rem : Nat)
    (s' : State) (out : List Nat)
    (hok : s.transition (.valueChunk wt bs rem) = .ok s' out) :
    s' = .initial ↔ rem = 0 := by
  cases s with
  | initial => cases hok
  | header hd => cases hok
  | bytes r =>
    simp only [State.transition, State.handle_value_chunk] at hok
    split at hok
    · cases hok
    · split at hok <;> cases hok <;> simp_all
  | string r =>
    simp only [State.transition, State.handle_value_chunk] at hok
    split at hok
    · cases hok
    · split at hok <;> cases hok <;> simp_all
  | message r =>
    simp only [State.transition, State.handle_value_chunk] at hok
    split at hok
    · cases hok
    · split at hok <;> cases hok <;> simp_all
  | sequence r =>
    simp only [State.transition, State.handle_value_chunk] at hok
    split at hok
    · cases hok
    · split at hok <;> cases hok <;> simp_all

/-- Helper for the lifecycle analysis: the only successful transitions
that leave a remaining-count state with remaining 0 are a zero-length
`LengthDelimiter` and a `SequenceHeader` pass-through of such a state. -/
theorem remaining_zero_only_from_zero_delimiter (s : State) (e : Event) (s' : State)
    (out : List Nat) (hok : s.transition e = .ok s' out)
    (hz : s'.isRemainingZero = true) :
    (∃ wt, e = .lengthDelimiter wt 0) ∨
      (s = s' ∧ ∃ wt len, e = .sequenceHeader wt len) := by
  cases e with
  | fieldHeader h =>
    simp only [State.transition, State.handle_field_header] at hok
    split at hok <;> cases hok
    simp [State.isRemainingZero] at hz
  | bool v =>
    cases s <;> cases hok
    simp [State.isRemainingZero] at hz
  | uint64 v =>
    cases s <;> cases hok
    simp [State.isRemainingZero] at hz
  | sint64 v =>
    cases s <;> cases hok
    simp [State.isRemainingZero] at hz
  | lengthDelimiter wt len =>
    cases s with
    | initial => cases hok
    | bytes r => cases hok
    | string r => cases hok
    | message r => cases hok
    | sequence r => cases hok
    | header hd =>
      simp only [State.transition, State.handle_length_delimiter] at hok
      split at hok
      · cases hok
      · cases wt <;> cases hok <;>
          simp only [State.isRemainingZero, beq_iff_eq] at hz <;>
          exact Or.inl ⟨_, by rw [hz]⟩
  | valueChunk wt bs rem =>
    cases s with
    | initial => cases hok
    | header hd => cases hok
    | bytes r =>
      simp only [State.transition, State.handle_value_chunk] at hok
      split at hok
      · cases hok
      · split at hok <;> cases hok <;> simp_all [State.isRemainingZero]
    | string r =>
      simp only [State.transition, State.handle_value_chunk] at hok
      split at hok
      · cases hok
      · split at hok <;> cases hok <;> simp_all [State.isRemainingZero]
    | message r =>
      simp only [State.transition, State.handle_value_chunk] at hok
      split at hok
      · cases hok
      · split at hok <;> cases hok <;> simp_all [State.isRemainingZero]
    | sequence r =>
      simp only [State.transition, State.handle_value_chunk] at hok
      split at hok
      · cases hok
      · split at hok <;> cases hok <;> simp_all [State.isRemainingZero]
  | sequenceHeader wt len =>
    cases hok
    exact Or.inr ⟨rfl, _, _, rfl⟩

/-- C9 amended: excluding `SequenceHeader` events (which pass every state
through unchanged), a `Header` state is consumed by the very next
successful event — a scalar (never a `LengthDelimiter`) returns to
`Initial` and a `LengthDelimiter` always produces a remaining-count state;
a successful `ValueChunk` produces `Initial` exactly when its declared new
remaining is 0; and a successful transition leaves a remaining-count state
with remaining 0 only when the event is a `LengthDelimiter` with length 0,
or a `SequenceHeader` pass-through of a state already at remaining 0. -/
theorem c9_lifecycle_amended (s : State) (e : Event) (s' : State) (out : List Nat)
    (hok : s.transition e = .ok s' out) :
    ((∃ hd, s = .header hd) → (∀ wt len, e ≠ .sequenceHeader wt len) →
      ((s' = .initial ∧ ∀ wt len, e ≠ .lengthDelimiter wt len) ∨
        (s'.isRemainingCount = true ∧ ∃ wt len, e = .lengthDelimiter wt len))) ∧
    (∀ wt bs rem, e = .valueChunk wt bs rem → (s' = .initial ↔ rem = 0)) ∧
    (s'.isRemainingZero = true →
      ((∃ wt, e = .lengthDelimiter wt 0) ∨
        (s = s' ∧ ∃ wt len, e = .sequenceHeader wt len))) := by
  refine ⟨?_, ?_, ?_⟩
  · rintro ⟨hd, rfl⟩ hns
    exact header_state_consumed hd e s' out hok hns
  · rintro wt bs rem rfl
    exact chunk_initial_iff_zero s wt bs rem s' out hok
  · intro hz
    exact remaining_zero_only_from_zero_delimiter s e s' out hok hz

/-- C9 witness: the lifecycle facts instantiated at a scalar consumed in a
concrete `Header` state. -/
theorem c9_lifecycle_amended_witness :
    (State.initial = State.initial ∧
        ∀ wt len, Event.uint64 42 ≠ Event.lengthDelimiter wt len) ∨
      (State.initial.isRemainingCount = true ∧
        ∃ wt len, Event.uint64 42 = Event.lengthDelimiter wt len) :=
  (c9_lifecycle_amended (.header ⟨1, .uint64⟩) (.uint64 42) .initial
      (hash_uint64 1 42) (by decide)).1 ⟨⟨1, .uint64⟩, rfl⟩ (by intro wt len h; cases h)

/-- C10: a `ValueChunk` accepted in a `Message` or `Sequence` state with
nonzero declared new remaining moves to `Bytes{new_remaining}` (not a
`Message`/`Sequence` state), so a follow-up chunk for the same value
succeeds only with wire type `Bytes`: any follow-up chunk declaring a
different wire type (in particular `Message` or `Sequence`) fails. -/
theorem c10_nested_chunk_switches_to_bytes (r rem : Nat) (wt : WireType)
    (bs : List Nat) (s' : State) (out : List Nat)
    (hok : State.handle_value_chunk (.message r) wt bs rem = .ok s' out ∨
           State.handle_value_chunk (.sequence r) wt bs rem = .ok s' out)
    (hrem : rem ≠ 0) :
    s' = .bytes rem ∧
    ∀ wt' bs' rem', wt' ≠ .bytes →
      State.handle_value_chunk s' wt' bs' rem' = .err .hashing := by
  have hs' : s' = .bytes rem := by
    rcases hok with hok | hok
    · simp only [State.handle_value_chunk] at hok
      split at hok
      · cases hok
      · cases hok
        rfl
    · simp only [State.handle_value_chunk] at hok
      split at hok
      · cases hok
      · cases hok
        rfl
  refine ⟨hs', fun wt' bs' rem' hwt => ?_⟩
  subst hs'
  simp only [State.handle_value_chunk]
  rw [if_pos (Or.inl hwt)]

/-- C10 witness: after a `Message{2}` chunk leaving remaining 1, a
follow-up chunk declaring wire type `Message` fails. -/
theorem c10_nested_chunk_switches_to_bytes_witness :
    State.handle_value_chunk (.bytes 1) .message [9] 0 = .err .hashing :=
  (c10_nested_chunk_switches_to_bytes 2 1 .message [7] (.bytes 1) []
    (Or.inl (by decide)) (by decide)).2 .message [9] 0 (by decide)

end Veriform
